import Mathlib

/-!
# dis-bundle-scheduler: the publish orchestrator and the configuration

A shallow embedding of `publisher/publisher.go` (`Publisher.Run`) and of
`config/config.go` (`Get`, `Configuration.String`).

The remote bundle client (`sdk.Clienter`), the clock (`time.Now`), the environment
loader (`envconfig.Process`) and the JSON decoder (`json.Unmarshal` into
`models.Bundle`) are collaborators of the program: they are the fields of a `World`,
each a function over an arbitrary collaborator state `σ`, so that every behaviour a
mock or a real client can show (also one that depends on the calls made so far) is
covered.  `Run` threads that state in the order in which the Go code performs the
calls and records every client call it issues.  A nil pointer dereference of the Go
code is the result `Return.panicked`.  Log statements have no effect on the result
and are left out.
-/

namespace BundleScheduler

/-! ## config/config.go -/

/-- Service configuration (`config.Configuration`). `ServiceToken` carries the struct
tag `json:"-"`, `BundlesAPIUrl` carries no json tag. -/
structure Configuration where
  ServiceToken : String
  BundlesAPIUrl : String
  deriving DecidableEq

/-- One exported struct field as `encoding/json` sees it: the Go field name, the name
part of its `json` struct tag (empty when the field has none) and its string value. -/
structure Field where
  name : String
  jsonTag : String
  value : String
  deriving DecidableEq

/-- The object members `json.Marshal` writes for a struct whose fields are strings: a
field tagged `json:"-"` is skipped, any other field is written as `"key":value`, the key
being the tag name, or the Go field name when the tag is empty. `quote` is the JSON
string encoder of `encoding/json` (escaping included), taken as a parameter. -/
def marshalMembers (quote : String → String) : List Field → List String
  | [] => []
  | f :: fs =>
    if f.jsonTag = "-" then marshalMembers quote fs
    else
      ("\"" ++ (if f.jsonTag = "" then f.name else f.jsonTag) ++ "\":" ++ quote f.value)
        :: marshalMembers quote fs

/-- The text `json.Marshal` produces for a struct of string fields: the members, comma
separated, between braces. -/
def Marshal (quote : String → String) (fields : List Field) : String :=
  "\x7b" ++ ",".intercalate (marshalMembers quote fields) ++ "\x7d"

/-- The fields of `Configuration` with their struct tags, in declaration order. -/
def Configuration.fields (config : Configuration) : List Field :=
  [⟨"ServiceToken", "-", config.ServiceToken⟩, ⟨"BundlesAPIUrl", "", config.BundlesAPIUrl⟩]

/-- The method `Configuration.String`: `b, _ := json.Marshal(config); return string(b)`. -/
def Configuration.String (quote : String → String) (config : Configuration) : String :=
  Marshal quote config.fields

/-- The function `config.Get` on the package variable `cfg` (the cached configuration):
a cached configuration is returned with a nil error; otherwise the defaults are stored
in `cfg`, `envconfig.Process` overwrites them from the environment, and the configuration
is returned together with whatever error `Process` reports. The result is the returned
pair, the new value of `cfg` and the collaborator state. -/
def Get {σ : Type} (Process : Configuration → σ → (Configuration × Option String) × σ)
    (cfg : Option Configuration) (s : σ) :
    (Configuration × Option String) × Option Configuration × σ :=
  match cfg with
  | some c => ((c, none), some c, s)
  | none =>
    match Process ⟨"bundle-scheduler-test-auth-token", "http://localhost:29800"⟩ s with
    | ((c, err), s1) => ((c, err), some c, s1)

/-! ## Types of the bundle API client that `Run` uses -/

/-- An instant (`time.Time` compared by `Before` and `Equal`): nanoseconds since the
zero time. The values `Run` compares carry no monotonic clock reading (`UTC()` strips
it), so comparison is comparison of instants. -/
abbrev Time := Int

/-- The duration `time.Minute` in nanoseconds. -/
def Minute : Int := 60 * 1000000000

/-- The method `Time.Round(d)`: the result of rounding `t` to the nearest multiple of
`d` since the zero time, halfway values rounding up; `t` unchanged when `d <= 0`. -/
def Round (t : Time) (d : Int) : Time :=
  if d ≤ 0 then t
  else
    let r := t % d
    if r + r < d then t - r else t + (d - r)

/-- Request headers (`sdk.Headers`): the fields `Run` sets. The zero value of a string
field is the empty string. -/
structure Headers where
  ServiceAuthToken : String
  IfMatch : String := ""
  deriving DecidableEq

/-- The lifecycle state of a bundle (`models.BundleState`), a string type. -/
abbrev BundleState := String

/-- Modelled from the spec: the constant `models.BundleStatePublished` of the bundle
API models, declared outside these sources; the spec names the target state of the
update `PUBLISHED`. -/
def BundleStatePublished : BundleState := "PUBLISHED"

/-- A bundle (`models.Bundle`): the fields `Run` reads. `ScheduledAt` is a
`*time.Time`, nil when the payload carries no scheduled time. -/
structure Bundle where
  ID : String
  ScheduledAt : Option Time
  State : BundleState
  deriving DecidableEq

/-- The result of the listing call (`sdk.BundlesList`). -/
structure BundlesList where
  Count : Int
  Items : List Bundle
  Offset : Int := 0
  Limit : Int := 0
  deriving DecidableEq

/-- An error of the client (`sdk/errors.Error`): the text its `Error()` method returns
and the code its `Status()` method returns. -/
structure Error where
  Message : String
  Code : Int
  deriving DecidableEq

/-- Response headers (`http.Header`), a map from canonical header names to values. -/
abbrev Header := List (String × List String)

/-- The method `http.Header.Get` for a key already in canonical form (as `"Etag"`
is): the first value stored under the key, the empty string when there is none. -/
def Header.Get (h : Header) (key : String) : String :=
  match h.lookup key with
  | some (v :: _) => v
  | _ => ""

/-- The result of the detail fetch (`sdk.ResponseInfo`); `β` is the type of the raw
payload. -/
structure ResponseInfo (β : Type) where
  Status : Int
  Body : β
  Headers : Header

/-- A call `Run` issues on the bundle client, with its arguments (the context apart).
`GetBundles` is always called with nil query parameters. -/
inductive Call where
  | GetBundles (headers : Headers) (scheduledAt : Time)
  | GetBundle (headers : Headers) (id : String)
  | PutBundleState (headers : Headers) (id : String) (state : BundleState)
  deriving DecidableEq

/-- The collaborators of `Run` over a collaborator state `σ`: the clock, the
environment loader, the three client operations `Run` calls (each returning the Go
pair of a pointer, `none` for nil, and an error, `none` for nil) and the decoder
`json.Unmarshal` into a `models.Bundle` (`none` when it reports an error). -/
structure World (σ β : Type) where
  timeNow : σ → Time × σ
  Process : Configuration → σ → (Configuration × Option String) × σ
  GetBundles : σ → Headers → Time → (Option BundlesList × Option Error) × σ
  GetBundle : σ → Headers → String → (Option (ResponseInfo β) × Option Error) × σ
  PutBundleState : σ → Headers → String → BundleState → (Option Bundle × Option Error) × σ
  Unmarshal : β → Option Bundle

/-! ## publisher/publisher.go -/

/-- The per-bundle outcome (`PublishBundleResult`). -/
structure PublishBundleResult where
  BundleID : String
  Success : Bool
  Error : Option String
  deriving DecidableEq

/-- The aggregate result (`PublishResult`); the zero value has no results and
`Success = false`. -/
structure PublishResult where
  Results : List PublishBundleResult := []
  Success : Bool := false
  deriving DecidableEq

/-- The error `Run` returns: the one reported by `config.Get` or the one reported by
the listing call. -/
inductive RunError where
  | config (message : String)
  | listing (err : Error)
  deriving DecidableEq

/-- How a call of `Run` ends: it returns its pair, or it panics on a nil pointer
dereference. -/
inductive Return where
  | returned (result : PublishResult) (err : Option RunError)
  | panicked
  deriving DecidableEq

/-- What a call of `Run` leaves behind: how it ended, the client calls it issued, in
order, the package variable `cfg` and the collaborator state. -/
structure RunOutput (σ : Type) where
  ret : Return
  calls : List Call
  cfg : Option Configuration
  world : σ

/-- Go's `strings.HasPrefix` on character sequences. -/
def startsWith : List Char → List Char → Bool
  | _, [] => true
  | [], _ :: _ => false
  | c :: cs, p :: ps => decide (c = p) && startsWith cs ps

/-- Whether `substr` occurs within `s`, on character sequences. -/
def containsChars : List Char → List Char → Bool
  | [], substr => startsWith [] substr
  | c :: cs, substr => startsWith (c :: cs) substr || containsChars cs substr

/-- Go's `strings.Contains(s, substr)`: whether `substr` is within `s`. -/
def stringsContains (s substr : String) : Bool :=
  containsChars s.data substr.data

/-- Go's `fmt.Sprint(err)` for an error value: `<nil>` for a nil error, the text of its
`Error()` method otherwise. -/
def Sprint (err : Option Error) : String :=
  match err with
  | none => "<nil>"
  | some e => e.Message

/-- The variables of `Run` that live across the iterations of its loop (`headers`,
`publicationList.Results`), the collaborator state and the client calls issued so far. -/
structure LoopState (σ : Type) where
  headers : Headers
  Results : List PublishBundleResult
  world : σ
  calls : List Call

/-- How one iteration of the loop ends: the loop goes on to the next item, or the
iteration panics on a nil pointer dereference; either way with the state reached. -/
inductive Step (σ : Type) where
  | next (st : LoopState σ)
  | panic (st : LoopState σ)

/-- The body of the loop of `Run` for the listed item `item` (lines 93 to 124 of
publisher.go). The three panics are the dereferences of a nil `bundle` (`bundle.Body`),
of a nil `bundleObj.ScheduledAt` (the receiver of `Before`) and of a nil `updatedBundle`
(`updatedBundle.ID`). The assignment `headers.IfMatch = ...` changes the variable
`headers` of `Run`, which the later iterations read. -/
def iteration {σ β : Type} (w : World σ β) (st : LoopState σ) (item : Bundle) : Step σ :=
  match w.GetBundle st.world st.headers item.ID with
  | ((bundle, err), s1) =>
    let st1 : LoopState σ :=
      { st with world := s1, calls := st.calls ++ [Call.GetBundle st.headers item.ID] }
    match err with
    | some _ => Step.next st1
    | none =>
      match bundle with
      | none => Step.panic st1
      | some bundle =>
        match w.Unmarshal bundle.Body with
        | none => Step.next st1
        | some bundleObj =>
          match w.timeNow s1 with
          | (publishCheck, s2) =>
            let st2 : LoopState σ := { st1 with world := s2 }
            match bundleObj.ScheduledAt with
            | none => Step.panic st2
            | some scheduledAt =>
              if scheduledAt < publishCheck ∨ scheduledAt = publishCheck then
                if bundleObj.State = "APPROVED" then
                  let headers : Headers := { st.headers with IfMatch := bundle.Headers.Get "Etag" }
                  match w.PutBundleState s2 headers item.ID BundleStatePublished with
                  | ((updatedBundle, err), s3) =>
                    let st3 : LoopState σ :=
                      { st2 with
                        headers := headers
                        world := s3
                        calls := st2.calls ++ [Call.PutBundleState headers item.ID BundleStatePublished] }
                    match err with
                    | some _ =>
                      Step.next { st3 with Results := st3.Results ++ [⟨item.ID, false, none⟩] }
                    | none =>
                      match updatedBundle with
                      | none => Step.panic st3
                      | some updatedBundle =>
                        Step.next { st3 with Results := st3.Results ++ [⟨updatedBundle.ID, true, none⟩] }
                else Step.next st2
              else Step.next st2

/-- The loop of `Run` over the listed items, in order. -/
def loop {σ β : Type} (w : World σ β) : List Bundle → LoopState σ → Step σ
  | [], st => Step.next st
  | item :: rest, st =>
    match iteration w st item with
    | Step.next st1 => loop w rest st1
    | Step.panic st1 => Step.panic st1

/-- The method `Publisher.Run`, started with the package variable `cfg` of the config
package holding `cfg` and the collaborators in state `s`. -/
def Run {σ β : Type} (w : World σ β) (cfg : Option Configuration) (s : σ) : RunOutput σ :=
  match w.timeNow s with
  | (t, s1) =>
    let now := Round t Minute
    match Get w.Process cfg s1 with
    | ((_, some err), cfg1, s2) => ⟨Return.returned {} (some (RunError.config err)), [], cfg1, s2⟩
    | ((c, none), cfg1, s2) =>
      let headers : Headers := { ServiceAuthToken := c.ServiceToken }
      match w.GetBundles s2 headers now with
      | ((getScheduledBundlesResult, err), s3) =>
        let calls := [Call.GetBundles headers now]
        match getScheduledBundlesResult with
        | none => ⟨Return.panicked, calls, cfg1, s3⟩
        | some getScheduledBundlesResult =>
          if getScheduledBundlesResult.Count = 0 ∧ stringsContains (Sprint err) "404" = true then
            ⟨Return.returned { Success := true } none, calls, cfg1, s3⟩
          else
            match err with
            | some e => ⟨Return.returned {} (some (RunError.listing e)), calls, cfg1, s3⟩
            | none =>
              match loop w getScheduledBundlesResult.Items ⟨headers, [], s3, calls⟩ with
              | Step.panic st => ⟨Return.panicked, st.calls, cfg1, st.world⟩
              | Step.next st =>
                ⟨Return.returned { Success := true, Results := st.Results } none,
                  st.calls, cfg1, st.world⟩

/-! ## Vocabulary of the statements -/

/-- The state reached when an iteration ends, whichever way it ends. -/
def Step.state {σ : Type} : Step σ → LoopState σ
  | Step.next st => st
  | Step.panic st => st

/-- The ids of the detail fetches (`GetBundle` calls) in a sequence of client calls. -/
def fetchedIds : List Call → List String
  | [] => []
  | Call.GetBundle _ id :: cs => id :: fetchedIds cs
  | Call.GetBundles _ _ :: cs => fetchedIds cs
  | Call.PutBundleState _ _ _ :: cs => fetchedIds cs

/-- The run started with `cfg` and `s` obtains its configuration, lists
`pre ++ item :: post` without error, and its loop, having gone through `pre`, is about
to process `item` in the state `st`. -/
def Reaches {σ β : Type} (w : World σ β) (cfg : Option Configuration) (s : σ)
    (pre : List Bundle) (item : Bundle) (post : List Bundle) (st : LoopState σ) : Prop :=
  ∃ t s1 c cfg1 s2 list s3,
    w.timeNow s = (t, s1) ∧
    Get w.Process cfg s1 = ((c, none), cfg1, s2) ∧
    w.GetBundles s2 { ServiceAuthToken := c.ServiceToken } (Round t Minute)
      = ((some list, none), s3) ∧
    list.Items = pre ++ item :: post ∧
    loop w pre ⟨{ ServiceAuthToken := c.ServiceToken }, [], s3,
      [Call.GetBundles { ServiceAuthToken := c.ServiceToken } (Round t Minute)]⟩ = Step.next st

/-- The item `item`, processed in the loop state `st`, passes the gate of `Run`: its
detail fetch returns a response and no error, the payload decodes, the decoded
`ScheduledAt` is at or before the instant read for the check, and the decoded state is
`APPROVED`. -/
def Eligible {σ β : Type} (w : World σ β) (st : LoopState σ) (item : Bundle) : Prop :=
  ∃ bundle s1 bundleObj publishCheck s2 scheduledAt,
    w.GetBundle st.world st.headers item.ID = ((some bundle, none), s1) ∧
    w.Unmarshal bundle.Body = some bundleObj ∧
    w.timeNow s1 = (publishCheck, s2) ∧
    bundleObj.ScheduledAt = some scheduledAt ∧
    scheduledAt ≤ publishCheck ∧
    bundleObj.State = "APPROVED"

/-- The collaborators never make `Run` dereference nil: a detail fetch and an update
that report no error return a value, and the payload of a detail response, when it
decodes, carries a `ScheduledAt`. -/
def World.NilSafe {σ β : Type} (w : World σ β) : Prop :=
  (∀ s headers id s1, w.GetBundle s headers id ≠ ((none, none), s1)) ∧
  (∀ s headers id bundle s1 bundleObj,
    w.GetBundle s headers id = ((some bundle, none), s1) →
    w.Unmarshal bundle.Body = some bundleObj → bundleObj.ScheduledAt ≠ none) ∧
  (∀ s headers id state s1, w.PutBundleState s headers id state ≠ ((none, none), s1))

/-! ## Concrete collaborators

Stateless collaborators for the concrete runs below: the payload of a detail response
is represented by what it decodes to (`none` for a payload that does not decode), the
environment sets no variable, and every reading of the clock gives the instant `1000`. -/

/-- Collaborators that answer the listing call with `listing`, the detail fetch of
`id` with `detail id` and the update of `id` with `update id`. -/
def fixedWorld (listing : Option BundlesList × Option Error)
    (detail : String → Option (ResponseInfo (Option Bundle)) × Option Error)
    (update : String → Option Bundle × Option Error) : World Unit (Option Bundle) where
  timeNow := fun s => (1000, s)
  Process := fun c s => ((c, none), s)
  GetBundles := fun s _ _ => (listing, s)
  GetBundle := fun s _ id => (detail id, s)
  PutBundleState := fun s _ id _ => (update id, s)
  Unmarshal := fun body => body

/-- A listing call that fails with status 500 and a message text that happens to hold
the digits 404, next to an empty list of count 0. -/
def world500Text404 : World Unit (Option Bundle) :=
  fixedWorld (some { Count := 0, Items := [] },
      some ⟨"failed to unmarshal bundlesList response - error is: invalid character at offset 404", 500⟩)
    (fun _ => (none, none)) (fun _ => (none, none))

/-- A listing call that fails with status 500 next to a list of count 2, as in the
test of the listing failure. -/
def world500 : World Unit (Option Bundle) :=
  fixedWorld (some { Count := 2, Items := [⟨"bundle1", some 1060, "APPROVED"⟩], Limit := 20 },
      some ⟨"failed to unmarshal bundlesList response - error is: 500", 500⟩)
    (fun _ => (none, none)) (fun _ => (none, none))

/-- A listing call that fails with status 404 and a message text without the digits
404, next to an empty list of count 0. -/
def world404NoText : World Unit (Option Bundle) :=
  fixedWorld (some { Count := 0, Items := [] }, some ⟨"bundles not found", 404⟩)
    (fun _ => (none, none)) (fun _ => (none, none))

/-- A listing call that fails with status 404 and the message text of the test of the
empty result, next to an empty list of count 0. -/
def world404 : World Unit (Option Bundle) :=
  fixedWorld (some { Count := 0, Items := [] },
      some ⟨"failed as unexpected code from bundle api: 404", 404⟩)
    (fun _ => (none, none)) (fun _ => (none, none))

/-- The service token of the default configuration. -/
def testToken : String := "bundle-scheduler-test-auth-token"

/-- The default configuration, which `Get` returns when the environment sets nothing. -/
def testConfig : Configuration := ⟨testToken, "http://localhost:29800"⟩

/-- The state in which the loop of a concrete run starts. -/
def testStart : LoopState Unit :=
  ⟨{ ServiceAuthToken := testToken }, [], (), [Call.GetBundles { ServiceAuthToken := testToken } 0]⟩

/-- A detail response for a bundle in the given state, scheduled at `scheduledAt`, with
the entity tag `etag`. -/
def detailOf (id : String) (scheduledAt : Option Time) (state : BundleState) (etag : String) :
    Option (ResponseInfo (Option Bundle)) × Option Error :=
  (some ⟨200, some ⟨id, scheduledAt, state⟩, [("Etag", [etag])]⟩, none)

/-- The error of the tests of a failing detail fetch and of a failing update. -/
def error500 : Error := ⟨"failed to unmarshal bundleResponse - error is: 500", 500⟩

/-- The run of the test of the happy path: one listed item, its detail approved and
due, the update returns the published bundle. -/
def worldPublish : World Unit (Option Bundle) :=
  fixedWorld (some { Count := 2, Items := [⟨"bundle1", some 1060, "APPROVED"⟩], Limit := 20 }, none)
    (fun _ => detailOf "bundle2" (some 1000) "APPROVED" "etag-2")
    (fun _ => (some ⟨"bundle2", some 1000, "PUBLISHED"⟩, none))

/-- Two listed items, the first a draft that is due, the second approved and scheduled
after the check instant; the update mock returns nil and a nil error, as in the test
of the incorrect state. -/
def worldIneligible : World Unit (Option Bundle) :=
  fixedWorld (some { Count := 2, Items := [⟨"bundle5", some 1000, "DRAFT"⟩,
      ⟨"bundle1", some 1060, "APPROVED"⟩], Limit := 20 }, none)
    (fun id => if id = "bundle5" then detailOf "bundle5" (some 1000) "DRAFT" "etag-5"
      else detailOf "bundle1" (some 1060) "APPROVED" "etag-1")
    (fun _ => (none, none))

/-- Two listed items: the detail fetch of the first fails with status 500, the second
is approved and due and its update succeeds. -/
def worldFetchError : World Unit (Option Bundle) :=
  fixedWorld (some { Count := 2, Items := [⟨"bundle1", some 1000, "APPROVED"⟩,
      ⟨"bundle2", some 1000, "APPROVED"⟩], Limit := 20 }, none)
    (fun id => if id = "bundle1" then (none, some error500)
      else detailOf "bundle2" (some 1000) "APPROVED" "etag-2")
    (fun _ => (some ⟨"bundle2", some 1000, "PUBLISHED"⟩, none))

/-- Two listed items, both approved and due: the update of the first fails with status
500, the update of the second succeeds. -/
def worldUpdateFails : World Unit (Option Bundle) :=
  fixedWorld (some { Count := 2, Items := [⟨"bundle1", some 1000, "APPROVED"⟩,
      ⟨"bundle2", some 1000, "APPROVED"⟩], Limit := 20 }, none)
    (fun id => detailOf id (some 1000) "APPROVED" "etag")
    (fun id => if id = "bundle1" then (none, some error500)
      else (some ⟨id, some 1000, "PUBLISHED"⟩, none))

/-- One listed item whose detail decodes to an approved bundle without `ScheduledAt`. -/
def worldNoScheduledAt : World Unit (Option Bundle) :=
  fixedWorld (some { Count := 1, Items := [⟨"bundle1", none, "APPROVED"⟩], Limit := 20 }, none)
    (fun id => detailOf id none "APPROVED" "etag-1")
    (fun id => (some ⟨id, none, "PUBLISHED"⟩, none))

/-- One listed item, approved and due, whose update returns nil and a nil error. -/
def worldUpdateNil : World Unit (Option Bundle) :=
  fixedWorld (some { Count := 1, Items := [⟨"bundle1", some 1000, "APPROVED"⟩], Limit := 20 }, none)
    (fun id => detailOf id (some 1000) "APPROVED" "etag-1")
    (fun _ => (none, none))

/-- Collaborators that list `items`; every detail is approved and due and carries the
entity tag `etag-` followed by the id; every update succeeds. -/
def worldListing (items : List Bundle) : World Unit (Option Bundle) :=
  fixedWorld (some { Count := items.length, Items := items, Limit := 20 }, none)
    (fun id => detailOf id (some 1000) "APPROVED" ("etag-" ++ id))
    (fun id => (some ⟨id, some 1000, "PUBLISHED"⟩, none))

/-- Two listed items, both approved and due: the update of the first fails with status
500, the update of the second returns nil and a nil error. -/
def worldUpdateFailsThenNil : World Unit (Option Bundle) :=
  fixedWorld (some { Count := 2, Items := [⟨"bundle1", some 1000, "APPROVED"⟩,
      ⟨"bundle2", some 1000, "APPROVED"⟩], Limit := 20 }, none)
    (fun id => detailOf id (some 1000) "APPROVED" "etag")
    (fun id => if id = "bundle1" then (none, some error500) else (none, none))

/-- Three listed items: the detail fetch of the first fails with status 500, the detail
of the second decodes to an approved bundle without `ScheduledAt`, the third is
approved and due. -/
def worldFetchErrorThenNoScheduledAt : World Unit (Option Bundle) :=
  fixedWorld (some { Count := 3, Items := [⟨"bundle1", some 1000, "APPROVED"⟩,
      ⟨"bundle2", none, "APPROVED"⟩, ⟨"bundle3", some 1000, "APPROVED"⟩], Limit := 20 }, none)
    (fun id => if id = "bundle1" then (none, some error500)
      else if id = "bundle2" then detailOf "bundle2" none "APPROVED" "etag-2"
      else detailOf "bundle3" (some 1000) "APPROVED" "etag-3")
    (fun id => (some ⟨id, some 1000, "PUBLISHED"⟩, none))

/-! ## Lemmas on the helpers -/

theorem startsWith_iff (s p : List Char) : startsWith s p = true ↔ ∃ b, s = p ++ b := by
  induction p generalizing s with
  | nil => simp [startsWith]
  | cons x ps ih =>
    cases s with
    | nil => simp [startsWith]
    | cons c cs =>
      simp only [startsWith, Bool.and_eq_true, decide_eq_true_eq, ih, List.cons_append,
        List.cons.injEq]
      constructor
      · rintro ⟨rfl, b, rfl⟩
        exact ⟨b, rfl, rfl⟩
      · rintro ⟨b, rfl, rfl⟩
        exact ⟨rfl, b, rfl⟩

/-- The function `containsChars` decides occurrence as a contiguous block. -/
theorem containsChars_iff (s p : List Char) :
    containsChars s p = true ↔ ∃ a b, s = a ++ p ++ b := by
  induction s with
  | nil =>
    simp only [containsChars, startsWith_iff]
    constructor
    · rintro ⟨b, hb⟩
      exact ⟨[], b, by simpa using hb⟩
    · rintro ⟨a, b, hab⟩
      have h1 : a = [] ∧ p = [] ∧ b = [] := by simpa [eq_comm] using hab
      exact ⟨[], by simp [h1.2.1]⟩
  | cons c cs ih =>
    simp only [containsChars, Bool.or_eq_true, startsWith_iff, ih]
    constructor
    · rintro (⟨b, hb⟩ | ⟨a, b, hab⟩)
      · exact ⟨[], b, by simpa using hb⟩
      · exact ⟨c :: a, b, by simp [hab]⟩
    · rintro ⟨a, b, hab⟩
      cases a with
      | nil => exact Or.inl ⟨b, by simpa using hab⟩
      | cons x a =>
        simp only [List.cons_append, List.cons.injEq] at hab
        exact Or.inr ⟨a, b, by simpa using hab.2⟩

theorem Sprint_nil_not_404 : stringsContains (Sprint none) "404" = false := by
  decide

/-- What `Run` does once its listing call has returned a list and an error. -/
theorem Run_of_listing_error {σ β : Type} (w : World σ β) (cfg : Option Configuration) (s : σ)
    (t : Time) (s1 : σ) (c : Configuration) (cfg1 : Option Configuration) (s2 : σ)
    (list : BundlesList) (e : Error) (s3 : σ)
    (h0 : w.timeNow s = (t, s1))
    (h1 : Get w.Process cfg s1 = ((c, none), cfg1, s2))
    (h2 : w.GetBundles s2 { ServiceAuthToken := c.ServiceToken } (Round t Minute)
      = ((some list, some e), s3)) :
    Run w cfg s =
      if list.Count = 0 ∧ stringsContains e.Message "404" = true then
        ⟨Return.returned { Success := true } none,
          [Call.GetBundles { ServiceAuthToken := c.ServiceToken } (Round t Minute)], cfg1, s3⟩
      else
        ⟨Return.returned {} (some (RunError.listing e)),
          [Call.GetBundles { ServiceAuthToken := c.ServiceToken } (Round t Minute)], cfg1, s3⟩ := by
  simp only [Run, h0, h1, h2, Sprint]

/-- What `Run` does once its listing call has returned a list and no error. -/
theorem Run_of_listing_ok {σ β : Type} (w : World σ β) (cfg : Option Configuration) (s : σ)
    (t : Time) (s1 : σ) (c : Configuration) (cfg1 : Option Configuration) (s2 : σ)
    (list : BundlesList) (s3 : σ)
    (h0 : w.timeNow s = (t, s1))
    (h1 : Get w.Process cfg s1 = ((c, none), cfg1, s2))
    (h2 : w.GetBundles s2 { ServiceAuthToken := c.ServiceToken } (Round t Minute)
      = ((some list, none), s3)) :
    Run w cfg s =
      match loop w list.Items ⟨{ ServiceAuthToken := c.ServiceToken }, [], s3,
          [Call.GetBundles { ServiceAuthToken := c.ServiceToken } (Round t Minute)]⟩ with
      | Step.panic st => ⟨Return.panicked, st.calls, cfg1, st.world⟩
      | Step.next st =>
        ⟨Return.returned { Success := true, Results := st.Results } none,
          st.calls, cfg1, st.world⟩ := by
  simp only [Run, h0, h1, h2, Sprint_nil_not_404]
  simp

/-! ## Lemmas on the loop -/

theorem fetchedIds_append (xs ys : List Call) :
    fetchedIds (xs ++ ys) = fetchedIds xs ++ fetchedIds ys := by
  induction xs with
  | nil => rfl
  | cons x xs ih => cases x <;> simp [fetchedIds, ih]

theorem loop_cons {σ β : Type} (w : World σ β) (item : Bundle) (rest : List Bundle)
    (st : LoopState σ) :
    loop w (item :: rest) st =
      match iteration w st item with
      | Step.next st1 => loop w rest st1
      | Step.panic st1 => Step.panic st1 := rfl

theorem loop_append {σ β : Type} (w : World σ β) (pre post : List Bundle) (st : LoopState σ) :
    loop w (pre ++ post) st =
      match loop w pre st with
      | Step.next st1 => loop w post st1
      | Step.panic st1 => Step.panic st1 := by
  induction pre generalizing st with
  | nil => rfl
  | cons item rest ih =>
    simp only [List.cons_append, loop_cons]
    cases iteration w st item with
    | next st1 => exact ih st1
    | panic st1 => rfl

/-- An iteration whose detail fetch reports an error leaves the loop variables as they
are and goes on to the next item. -/
theorem iteration_fetch_error {σ β : Type} (w : World σ β) (st : LoopState σ) (item : Bundle)
    (bundle : Option (ResponseInfo β)) (e : Error) (s1 : σ)
    (hfetch : w.GetBundle st.world st.headers item.ID = ((bundle, some e), s1)) :
    iteration w st item =
      Step.next ⟨st.headers, st.Results, s1, st.calls ++ [Call.GetBundle st.headers item.ID]⟩ := by
  simp only [iteration, hfetch]

/-- An iteration that passes the gate and whose update call reports an error: the
update call carries the entity tag of the detail response as `IfMatch`, and a failed
outcome under the id of the listed item is appended. -/
theorem iteration_update_failed {σ β : Type} (w : World σ β) (st : LoopState σ) (item : Bundle)
    (bundle : ResponseInfo β) (s1 : σ) (bundleObj : Bundle) (publishCheck : Time) (s2 : σ)
    (scheduledAt : Time) (updatedBundle : Option Bundle) (e : Error) (s3 : σ)
    (hfetch : w.GetBundle st.world st.headers item.ID = ((some bundle, none), s1))
    (hdecode : w.Unmarshal bundle.Body = some bundleObj)
    (hclock : w.timeNow s1 = (publishCheck, s2))
    (hscheduled : bundleObj.ScheduledAt = some scheduledAt)
    (hdue : scheduledAt ≤ publishCheck)
    (hstate : bundleObj.State = "APPROVED")
    (hupdate : w.PutBundleState s2 { st.headers with IfMatch := bundle.Headers.Get "Etag" }
      item.ID BundleStatePublished = ((updatedBundle, some e), s3)) :
    iteration w st item =
      Step.next ⟨{ st.headers with IfMatch := bundle.Headers.Get "Etag" },
        st.Results ++ [⟨item.ID, false, none⟩], s3,
        st.calls ++ [Call.GetBundle st.headers item.ID,
          Call.PutBundleState { st.headers with IfMatch := bundle.Headers.Get "Etag" }
            item.ID BundleStatePublished]⟩ := by
  have hdue1 : scheduledAt < publishCheck ∨ scheduledAt = publishCheck := lt_or_eq_of_le hdue
  simp only [iteration, hfetch, hdecode, hclock, hscheduled, hdue1, hstate, hupdate, if_true,
    List.append_assoc, List.singleton_append]

/-- An iteration that passes the gate and whose update call returns neither an item nor
an error panics after the update call. -/
theorem iteration_update_nil {σ β : Type} (w : World σ β) (st : LoopState σ) (item : Bundle)
    (bundle : ResponseInfo β) (s1 : σ) (bundleObj : Bundle) (publishCheck : Time) (s2 : σ)
    (scheduledAt : Time)  (s3 : σ)
    (hfetch : w.GetBundle st.world st.headers item.ID = ((some bundle, none), s1))
    (hdecode : w.Unmarshal bundle.Body = some bundleObj)
    (hclock : w.timeNow s1 = (publishCheck, s2))
    (hscheduled : bundleObj.ScheduledAt = some scheduledAt)
    (hdue : scheduledAt ≤ publishCheck)
    (hstate : bundleObj.State = "APPROVED")
    (hupdate : w.PutBundleState s2 { st.headers with IfMatch := bundle.Headers.Get "Etag" }
      item.ID BundleStatePublished = ((none, none), s3)) :
    iteration w st item =
      Step.panic ⟨{ st.headers with IfMatch := bundle.Headers.Get "Etag" },
        st.Results, s3,
        st.calls ++ [Call.GetBundle st.headers item.ID,
          Call.PutBundleState { st.headers with IfMatch := bundle.Headers.Get "Etag" }
            item.ID BundleStatePublished]⟩ := by
  have hdue1 : scheduledAt < publishCheck ∨ scheduledAt = publishCheck := lt_or_eq_of_le hdue
  simp only [iteration, hfetch, hdecode, hclock, hscheduled, hdue1, hstate, hupdate, if_true,
    List.append_assoc, List.singleton_append]

/-- An iteration that passes the gate and whose update call returns an item and no
error: a successful outcome under the id of the returned item is appended. -/
theorem iteration_update_ok {σ β : Type} (w : World σ β) (st : LoopState σ) (item : Bundle)
    (bundle : ResponseInfo β) (s1 : σ) (bundleObj : Bundle) (publishCheck : Time) (s2 : σ)
    (scheduledAt : Time) (updatedBundle : Bundle) (s3 : σ)
    (hfetch : w.GetBundle st.world st.headers item.ID = ((some bundle, none), s1))
    (hdecode : w.Unmarshal bundle.Body = some bundleObj)
    (hclock : w.timeNow s1 = (publishCheck, s2))
    (hscheduled : bundleObj.ScheduledAt = some scheduledAt)
    (hdue : scheduledAt ≤ publishCheck)
    (hstate : bundleObj.State = "APPROVED")
    (hupdate : w.PutBundleState s2 { st.headers with IfMatch := bundle.Headers.Get "Etag" }
      item.ID BundleStatePublished = ((some updatedBundle, none), s3)) :
    iteration w st item =
      Step.next ⟨{ st.headers with IfMatch := bundle.Headers.Get "Etag" },
        st.Results ++ [⟨updatedBundle.ID, true, none⟩], s3,
        st.calls ++ [Call.GetBundle st.headers item.ID,
          Call.PutBundleState { st.headers with IfMatch := bundle.Headers.Get "Etag" }
            item.ID BundleStatePublished]⟩ := by
  have hdue1 : scheduledAt < publishCheck ∨ scheduledAt = publishCheck := lt_or_eq_of_le hdue
  simp only [iteration, hfetch, hdecode, hclock, hscheduled, hdue1, hstate, hupdate, if_true,
    List.append_assoc, List.singleton_append]

/-- The ways an iteration can end, with the path that leads to each. -/
theorem iteration_cases {σ β : Type} (w : World σ β) (st : LoopState σ) (item : Bundle) :
    (¬ Eligible w st item ∧
      ((∃ s1, iteration w st item =
          Step.next ⟨st.headers, st.Results, s1, st.calls ++ [Call.GetBundle st.headers item.ID]⟩) ∨
       (∃ s1, ¬ w.NilSafe ∧ iteration w st item =
          Step.panic ⟨st.headers, st.Results, s1, st.calls ++ [Call.GetBundle st.headers item.ID]⟩))) ∨
    (∃ bundle s1 bundleObj publishCheck s2 scheduledAt updatedBundle err s3,
      w.GetBundle st.world st.headers item.ID = ((some bundle, none), s1) ∧
      w.Unmarshal bundle.Body = some bundleObj ∧
      w.timeNow s1 = (publishCheck, s2) ∧
      bundleObj.ScheduledAt = some scheduledAt ∧
      scheduledAt ≤ publishCheck ∧
      bundleObj.State = "APPROVED" ∧
      w.PutBundleState s2 { st.headers with IfMatch := bundle.Headers.Get "Etag" }
        item.ID BundleStatePublished = ((updatedBundle, err), s3)) := by
  rcases hfetch : w.GetBundle st.world st.headers item.ID with ⟨⟨bundle, err⟩, s1⟩
  cases err with
  | some e =>
    refine Or.inl ⟨?_, Or.inl ⟨s1, iteration_fetch_error w st item bundle e s1 hfetch⟩⟩
    rintro ⟨b, _, _, _, _, _, h, _⟩
    rw [hfetch] at h
    simp at h
  | none =>
    cases bundle with
    | none =>
      refine Or.inl ⟨?_, Or.inr ⟨s1, fun hsafe => hsafe.1 _ _ _ _ hfetch,
        by simp only [iteration, hfetch]⟩⟩
      rintro ⟨b, _, _, _, _, _, h, _⟩
      rw [hfetch] at h
      simp at h
    | some bundle =>
      cases hdecode : w.Unmarshal bundle.Body with
      | none =>
        refine Or.inl ⟨?_, Or.inl ⟨s1, by simp only [iteration, hfetch, hdecode]⟩⟩
        rintro ⟨b, _, _, _, _, _, h, h1, _⟩
        rw [hfetch] at h
        simp only [Prod.mk.injEq, Option.some.injEq, and_true] at h
        obtain ⟨rfl, rfl⟩ := h
        rw [hdecode] at h1
        simp at h1
      | some bundleObj =>
        rcases hclock : w.timeNow s1 with ⟨publishCheck, s2⟩
        cases hscheduled : bundleObj.ScheduledAt with
        | none =>
          refine Or.inl ⟨?_, Or.inr ⟨s2, fun hsafe => hsafe.2.1 _ _ _ _ _ _ hfetch hdecode hscheduled,
            by simp only [iteration, hfetch, hdecode, hclock, hscheduled]⟩⟩
          rintro ⟨b, _, _, _, _, _, h, h1, _, h3, _⟩
          rw [hfetch] at h
          simp only [Prod.mk.injEq, Option.some.injEq, and_true] at h
          obtain ⟨rfl, rfl⟩ := h
          rw [hdecode] at h1
          simp only [Option.some.injEq] at h1
          subst h1
          rw [hscheduled] at h3
          simp at h3
        | some scheduledAt =>
          by_cases hdue : scheduledAt ≤ publishCheck
          · by_cases hstate : bundleObj.State = "APPROVED"
            · rcases hupdate : w.PutBundleState s2
                { st.headers with IfMatch := bundle.Headers.Get "Etag" }
                item.ID BundleStatePublished with ⟨⟨updatedBundle, err⟩, s3⟩
              exact Or.inr ⟨bundle, s1, bundleObj, publishCheck, s2, scheduledAt, updatedBundle,
                err, s3, rfl, hdecode, hclock, hscheduled, hdue, hstate, hupdate⟩
            · have hdue1 : scheduledAt < publishCheck ∨ scheduledAt = publishCheck :=
                lt_or_eq_of_le hdue
              refine Or.inl ⟨?_, Or.inl ⟨s2, by
                simp only [iteration, hfetch, hdecode, hclock, hscheduled, hdue1, hstate,
                  if_true, if_false]⟩⟩
              rintro ⟨b, _, _, _, _, _, h, h1, _, _, _, h5⟩
              rw [hfetch] at h
              simp only [Prod.mk.injEq, Option.some.injEq, and_true] at h
              obtain ⟨rfl, rfl⟩ := h
              rw [hdecode] at h1
              simp only [Option.some.injEq] at h1
              subst h1
              exact hstate h5
          · have hdue1 : ¬ (scheduledAt < publishCheck ∨ scheduledAt = publishCheck) :=
              fun h => hdue (le_of_lt_or_eq h)
            refine Or.inl ⟨?_, Or.inl ⟨s2, by
              simp only [iteration, hfetch, hdecode, hclock, hscheduled, hdue1, if_false]⟩⟩
            rintro ⟨b, _, _, _, _, _, h, h1, h2, h3, h4, _⟩
            rw [hfetch] at h
            simp only [Prod.mk.injEq, Option.some.injEq, and_true] at h
            obtain ⟨rfl, rfl⟩ := h
            rw [hdecode] at h1
            simp only [Option.some.injEq] at h1
            subst h1
            rw [hclock] at h2
            simp only [Prod.mk.injEq] at h2
            obtain ⟨rfl, rfl⟩ := h2
            rw [hscheduled] at h3
            simp only [Option.some.injEq] at h3
            subst h3
            exact hdue h4

/-- An iteration adds its detail fetch, and nothing else but at most one update call, to
the calls, and at most one outcome to the results. -/
theorem iteration_extends {σ β : Type} (w : World σ β) (st : LoopState σ) (item : Bundle) :
    ∃ cs rs, (iteration w st item).state.calls = st.calls ++ cs ∧
      (iteration w st item).state.Results = st.Results ++ rs ∧
      fetchedIds cs = [item.ID] := by
  rcases iteration_cases w st item with ⟨_, ⟨s1, h⟩ | ⟨s1, _, h⟩⟩ |
    ⟨bundle, s1, bundleObj, publishCheck, s2, scheduledAt, updatedBundle, err, s3,
      hfetch, hdecode, hclock, hscheduled, hdue, hstate, hupdate⟩
  · exact ⟨[Call.GetBundle st.headers item.ID], [], by rw [h]; rfl, by rw [h]; simp [Step.state], rfl⟩
  · exact ⟨[Call.GetBundle st.headers item.ID], [], by rw [h]; rfl, by rw [h]; simp [Step.state], rfl⟩
  · refine ⟨[Call.GetBundle st.headers item.ID,
      Call.PutBundleState { st.headers with IfMatch := bundle.Headers.Get "Etag" }
        item.ID BundleStatePublished], ?_⟩
    cases err with
    | some e =>
      have h := iteration_update_failed w st item bundle s1 bundleObj publishCheck s2
        scheduledAt updatedBundle e s3 hfetch hdecode hclock hscheduled hdue hstate hupdate
      exact ⟨[⟨item.ID, false, none⟩], by rw [h]; rfl, by rw [h]; rfl, rfl⟩
    | none =>
      cases updatedBundle with
      | none =>
        have h := iteration_update_nil w st item bundle s1 bundleObj publishCheck s2
          scheduledAt s3 hfetch hdecode hclock hscheduled hdue hstate hupdate
        exact ⟨[], by rw [h]; rfl, by rw [h]; simp [Step.state], rfl⟩
      | some u =>
        have h := iteration_update_ok w st item bundle s1 bundleObj publishCheck s2
          scheduledAt u s3 hfetch hdecode hclock hscheduled hdue hstate hupdate
        exact ⟨[⟨u.ID, true, none⟩], by rw [h]; rfl, by rw [h]; rfl, rfl⟩

/-- The loop only appends to the calls and to the results, and a loop that runs to its
end has fetched the detail of every item it went through, once each and in order. -/
theorem loop_extends {σ β : Type} (w : World σ β) (items : List Bundle) (st : LoopState σ) :
    ∃ cs rs, (loop w items st).state.calls = st.calls ++ cs ∧
      (loop w items st).state.Results = st.Results ++ rs ∧
      (∀ st1, loop w items st = Step.next st1 → fetchedIds cs = items.map (fun b => b.ID)) := by
  induction items generalizing st with
  | nil => exact ⟨[], [], by simp [loop, Step.state], by simp [loop, Step.state], fun _ _ => rfl⟩
  | cons item rest ih =>
    obtain ⟨cs1, rs1, hc1, hr1, hf1⟩ := iteration_extends w st item
    rw [loop_cons]
    cases hstep : iteration w st item with
    | panic st1 =>
      rw [hstep] at hc1 hr1
      exact ⟨cs1, rs1, hc1, hr1, fun _ h => by simp at h⟩
    | next st1 =>
      rw [hstep] at hc1 hr1
      obtain ⟨cs2, rs2, hc2, hr2, hf2⟩ := ih st1
      simp only [Step.state] at hc1 hr1
      refine ⟨cs1 ++ cs2, rs1 ++ rs2, ?_, ?_, ?_⟩
      · simp only [hc2, hc1, List.append_assoc]
      · simp only [hr2, hr1, List.append_assoc]
      · intro st2 h
        simp only [fetchedIds_append, hf1, hf2 st2 h, List.map_cons, List.singleton_append]

/-- With collaborators that never make `Run` dereference nil, an iteration completes. -/
theorem iteration_next_of_NilSafe {σ β : Type} (w : World σ β) (hsafe : w.NilSafe)
    (st : LoopState σ) (item : Bundle) : ∃ st1, iteration w st item = Step.next st1 := by
  rcases iteration_cases w st item with ⟨_, ⟨s1, h⟩ | ⟨s1, hn, _⟩⟩ |
    ⟨bundle, s1, bundleObj, publishCheck, s2, scheduledAt, updatedBundle, err, s3,
      hfetch, hdecode, hclock, hscheduled, hdue, hstate, hupdate⟩
  · exact ⟨_, h⟩
  · exact absurd hsafe hn
  · cases err with
    | some e =>
      exact ⟨_, iteration_update_failed w st item bundle s1 bundleObj publishCheck s2
        scheduledAt updatedBundle e s3 hfetch hdecode hclock hscheduled hdue hstate hupdate⟩
    | none =>
      cases updatedBundle with
      | none => exact absurd hupdate (hsafe.2.2 _ _ _ _ _)
      | some u =>
        exact ⟨_, iteration_update_ok w st item bundle s1 bundleObj publishCheck s2
          scheduledAt u s3 hfetch hdecode hclock hscheduled hdue hstate hupdate⟩

/-- With collaborators that never make `Run` dereference nil, the loop runs to its end. -/
theorem loop_next_of_NilSafe {σ β : Type} (w : World σ β) (hsafe : w.NilSafe)
    (items : List Bundle) (st : LoopState σ) : ∃ st1, loop w items st = Step.next st1 := by
  induction items generalizing st with
  | nil => exact ⟨st, rfl⟩
  | cons item rest ih =>
    obtain ⟨st1, h1⟩ := iteration_next_of_NilSafe w hsafe st item
    obtain ⟨st2, h2⟩ := ih st1
    exact ⟨st2, by rw [loop_cons, h1]; exact h2⟩

/-- What a run that reaches an item returns and which calls it issues, in terms of
the rest of its loop. -/
theorem Run_of_Reaches {σ β : Type} (w : World σ β) (cfg : Option Configuration) (s : σ)
    (pre : List Bundle) (item : Bundle) (post : List Bundle) (st : LoopState σ)
    (hreach : Reaches w cfg s pre item post st) :
    (Run w cfg s).ret =
      (match loop w (item :: post) st with
      | Step.next st1 => Return.returned { Results := st1.Results, Success := true } none
      | Step.panic _ => Return.panicked) ∧
    (Run w cfg s).calls = (loop w (item :: post) st).state.calls := by
  obtain ⟨t, s1, c, cfg1, s2, list, s3, h0, h1, h2, hitems, hloop⟩ := hreach
  rw [Run_of_listing_ok w cfg s t s1 c cfg1 s2 list s3 h0 h1 h2, hitems, loop_append, hloop]
  simp only
  cases loop w (item :: post) st <;> exact ⟨rfl, rfl⟩

/-- With collaborators that never make `Run` dereference nil, a run whose listing call
returns a list and no error returns a nil error and `Success = true`. -/
theorem Run_returns_of_NilSafe {σ β : Type} (w : World σ β) (hsafe : w.NilSafe)
    (cfg : Option Configuration) (s : σ) (t : Time) (s1 : σ) (c : Configuration)
    (cfg1 : Option Configuration) (s2 : σ) (list : BundlesList) (s3 : σ)
    (h0 : w.timeNow s = (t, s1))
    (h1 : Get w.Process cfg s1 = ((c, none), cfg1, s2))
    (h2 : w.GetBundles s2 { ServiceAuthToken := c.ServiceToken } (Round t Minute)
      = ((some list, none), s3)) :
    ∃ results, (Run w cfg s).ret =
      Return.returned { Results := results, Success := true } none := by
  obtain ⟨stEnd, hend⟩ := loop_next_of_NilSafe w hsafe list.Items
    ⟨{ ServiceAuthToken := c.ServiceToken }, [], s3,
      [Call.GetBundles { ServiceAuthToken := c.ServiceToken } (Round t Minute)]⟩
  exact ⟨stEnd.Results, by
    rw [Run_of_listing_ok w cfg s t s1 c cfg1 s2 list s3 h0 h1 h2, hend]⟩

/-- The calls of the loop from an item on start with the calls of the iteration of that
item. -/
theorem loop_cons_calls {σ β : Type} (w : World σ β) (item : Bundle) (post : List Bundle)
    (st : LoopState σ) :
    ∃ cs, (loop w (item :: post) st).state.calls = (iteration w st item).state.calls ++ cs := by
  rw [loop_cons]
  cases iteration w st item with
  | panic st1 => exact ⟨[], by simp [Step.state]⟩
  | next st1 =>
    obtain ⟨cs, _, hcs, _, _⟩ := loop_extends w post st1
    exact ⟨cs, hcs⟩

/-- Fixed collaborators never make `Run` dereference nil when no answer to a detail
fetch or to an update is a nil value with a nil error and every payload that decodes
carries a `ScheduledAt`. -/
theorem fixedWorld_NilSafe (listing : Option BundlesList × Option Error)
    (detail : String → Option (ResponseInfo (Option Bundle)) × Option Error)
    (update : String → Option Bundle × Option Error)
    (hdetail : ∀ id, detail id ≠ (none, none))
    (hscheduled : ∀ id bundle bundleObj, detail id = (some bundle, none) →
      bundle.Body = some bundleObj → bundleObj.ScheduledAt ≠ none)
    (hupdate : ∀ id, update id ≠ (none, none)) :
    (fixedWorld listing detail update).NilSafe := by
  refine ⟨?_, ?_, ?_⟩
  · intro s headers id s1 h
    exact hdetail id (congrArg Prod.fst h)
  · intro s headers id bundle s1 bundleObj h hbody
    exact hscheduled id bundle bundleObj (congrArg Prod.fst h) hbody
  · intro s headers id state s1 h
    exact hupdate id (congrArg Prod.fst h)

theorem worldUpdateFails_NilSafe : worldUpdateFails.NilSafe := by
  refine fixedWorld_NilSafe _ _ _ ?_ ?_ ?_
  · intro id
    simp [detailOf]
  · intro id bundle bundleObj h hbody
    simp only [detailOf, Prod.mk.injEq, Option.some.injEq, and_true] at h
    subst h
    simp only [Option.some.injEq] at hbody
    subst hbody
    simp
  · intro id
    split <;> simp

theorem worldFetchError_NilSafe : worldFetchError.NilSafe := by
  refine fixedWorld_NilSafe _ _ _ ?_ ?_ ?_
  · intro id
    split <;> simp [detailOf]
  · intro id bundle bundleObj h hbody
    split at h
    · simp at h
    · simp only [detailOf, Prod.mk.injEq, Option.some.injEq, and_true] at h
      subst h
      simp only [Option.some.injEq] at hbody
      subst hbody
      simp
  · intro id
    simp

/-! ## The configuration -/

/-- C9: for every configuration, `String()` is the JSON encoding of the object whose
only member is `BundlesAPIUrl` (the service token is left out), so replacing the
service token by any other value leaves the output of `String()` unchanged. -/
theorem String_omits_ServiceToken (quote : String → String) (config : Configuration)
    (token : String) :
    config.String quote = Marshal quote [⟨"BundlesAPIUrl", "", config.BundlesAPIUrl⟩] ∧
    config.String quote = "\x7b\"BundlesAPIUrl\":" ++ quote config.BundlesAPIUrl ++ "\x7d" ∧
    Configuration.String quote { config with ServiceToken := token } = config.String quote := by
  refine ⟨rfl, ?_, rfl⟩
  simp [Configuration.String, Marshal, marshalMembers, Configuration.fields,
    String.intercalate, String.intercalate.go, String.append_assoc]
  rw [← String.append_assoc]
  rfl

/-! ## The listing step -/

/-- C1, as the code has it: for every listing call that fails with an error, of whatever
status, unless the list that comes with it has count 0 and the message text of the
error contains "404", `Run` returns that error and a `PublishResult` with no outcome
(and `Success = false`), and the listing call is the only client call it issues. -/
theorem listing_failure_fatal {σ β : Type} (w : World σ β) (cfg : Option Configuration)
    (s : σ) (t : Time) (s1 : σ) (c : Configuration) (cfg1 : Option Configuration) (s2 : σ)
    (list : BundlesList) (e : Error) (s3 : σ)
    (h0 : w.timeNow s = (t, s1))
    (h1 : Get w.Process cfg s1 = ((c, none), cfg1, s2))
    (h2 : w.GetBundles s2 { ServiceAuthToken := c.ServiceToken } (Round t Minute)
      = ((some list, some e), s3))
    (hsignal : ¬ (list.Count = 0 ∧ stringsContains e.Message "404" = true)) :
    Run w cfg s =
      ⟨Return.returned { Results := [], Success := false } (some (RunError.listing e)),
        [Call.GetBundles { ServiceAuthToken := c.ServiceToken } (Round t Minute)], cfg1, s3⟩ := by
  rw [Run_of_listing_error w cfg s t s1 c cfg1 s2 list e s3 h0 h1 h2, if_neg hsignal]

/-- A run whose listing call fails with status 500 next to a list of count 2 returns
the listing error and no outcome, and issues the listing call only. -/
theorem listing_failure_fatal_witness :
    Run world500 none () =
      ⟨Return.returned { Results := [], Success := false }
          (some (RunError.listing ⟨"failed to unmarshal bundlesList response - error is: 500", 500⟩)),
        [Call.GetBundles { ServiceAuthToken := "bundle-scheduler-test-auth-token" } 0],
        some ⟨"bundle-scheduler-test-auth-token", "http://localhost:29800"⟩, ()⟩ :=
  listing_failure_fatal world500 none () 1000 ()
    ⟨"bundle-scheduler-test-auth-token", "http://localhost:29800"⟩ _ ()
    { Count := 2, Items := [⟨"bundle1", some 1060, "APPROVED"⟩], Limit := 20 }
    ⟨"failed to unmarshal bundlesList response - error is: 500", 500⟩ () rfl rfl rfl (by decide)

/-- C1 fails as stated: the listing call fails with status 500, which is not 404, the
message text of the error contains "404" and the list has count 0; `Run` returns a nil
error and `Success = true`. -/
theorem listing_failure_not_fatal_counterexample :
    (world500Text404.GetBundles () { ServiceAuthToken := "bundle-scheduler-test-auth-token" } 0).1
      = (some { Count := 0, Items := [] },
          some ⟨"failed to unmarshal bundlesList response - error is: invalid character at offset 404", 500⟩) ∧
    (500 : Int) ≠ 404 ∧
    (Run world500Text404 none ()).ret = Return.returned { Results := [], Success := true } none := by
  decide

/-- C2, as the code has it: whenever the listing call returns an empty item list and no
error, or returns a list of count 0 with an error whose message text contains "404"
(whatever the status of the error), `Run` returns a nil error and a `PublishResult`
with `Success = true` and no outcome, and the listing call is the only client call it
issues. -/
theorem empty_result_not_an_error {σ β : Type} (w : World σ β) (cfg : Option Configuration)
    (s : σ) (t : Time) (s1 : σ) (c : Configuration) (cfg1 : Option Configuration) (s2 : σ)
    (list : BundlesList) (err : Option Error) (s3 : σ)
    (h0 : w.timeNow s = (t, s1))
    (h1 : Get w.Process cfg s1 = ((c, none), cfg1, s2))
    (h2 : w.GetBundles s2 { ServiceAuthToken := c.ServiceToken } (Round t Minute)
      = ((some list, err), s3))
    (hempty : (err = none ∧ list.Items = []) ∨
      (∃ e, err = some e ∧ stringsContains e.Message "404" = true ∧ list.Count = 0)) :
    Run w cfg s =
      ⟨Return.returned { Results := [], Success := true } none,
        [Call.GetBundles { ServiceAuthToken := c.ServiceToken } (Round t Minute)], cfg1, s3⟩ := by
  rcases hempty with ⟨rfl, hitems⟩ | ⟨e, rfl, htext, hcount⟩
  · rw [Run_of_listing_ok w cfg s t s1 c cfg1 s2 list s3 h0 h1 h2, hitems]
    rfl
  · rw [Run_of_listing_error w cfg s t s1 c cfg1 s2 list e s3 h0 h1 h2, if_pos ⟨hcount, htext⟩]

/-- The run of the test of the empty result: the listing call fails with status 404 and
a message text that contains "404", next to an empty list of count 0. -/
theorem empty_result_not_an_error_witness :
    Run world404 none () =
      ⟨Return.returned { Results := [], Success := true } none,
        [Call.GetBundles { ServiceAuthToken := "bundle-scheduler-test-auth-token" } 0],
        some ⟨"bundle-scheduler-test-auth-token", "http://localhost:29800"⟩, ()⟩ :=
  empty_result_not_an_error world404 none () 1000 ()
    ⟨"bundle-scheduler-test-auth-token", "http://localhost:29800"⟩ _ ()
    { Count := 0, Items := [] }
    (some ⟨"failed as unexpected code from bundle api: 404", 404⟩) () rfl rfl rfl
    (Or.inr ⟨_, rfl, by decide, rfl⟩)

/-- C2 fails as stated: the listing call reports status 404 next to an empty list of
count 0, the message text of the error does not contain "404"; `Run` returns the error
and `Success = false`. -/
theorem not_found_status_counterexample :
    (world404NoText.GetBundles () { ServiceAuthToken := "bundle-scheduler-test-auth-token" } 0).1
      = (some { Count := 0, Items := [] }, some ⟨"bundles not found", 404⟩) ∧
    (Run world404NoText none ()).ret =
      Return.returned { Results := [], Success := false }
        (some (RunError.listing ⟨"bundles not found", 404⟩)) := by
  decide

/-! ## The loop -/

/-- C5: when the listing call returns, without error, a list of exactly one item, the
detail fetch of that item returns a response and no error, the payload decodes to a
bundle in state `APPROVED` whose `ScheduledAt` is at or before the check instant, and
the update call returns an item and no error, then `Run` returns a nil error and
`Success = true` with exactly one outcome, which has `Success = true` and, as
`BundleID`, the id of the item the update call returned. -/
theorem happy_path {σ β : Type} (w : World σ β) (cfg : Option Configuration)
    (s : σ) (t : Time) (s1 : σ) (c : Configuration) (cfg1 : Option Configuration) (s2 : σ)
    (list : BundlesList) (s3 : σ) (item : Bundle)
    (bundle : ResponseInfo β) (s4 : σ) (bundleObj : Bundle) (publishCheck : Time) (s5 : σ)
    (scheduledAt : Time) (updatedBundle : Bundle) (s6 : σ)
    (h0 : w.timeNow s = (t, s1))
    (h1 : Get w.Process cfg s1 = ((c, none), cfg1, s2))
    (h2 : w.GetBundles s2 { ServiceAuthToken := c.ServiceToken } (Round t Minute)
      = ((some list, none), s3))
    (hitems : list.Items = [item])
    (hfetch : w.GetBundle s3 { ServiceAuthToken := c.ServiceToken } item.ID
      = ((some bundle, none), s4))
    (hdecode : w.Unmarshal bundle.Body = some bundleObj)
    (hclock : w.timeNow s4 = (publishCheck, s5))
    (hscheduled : bundleObj.ScheduledAt = some scheduledAt)
    (hdue : scheduledAt ≤ publishCheck)
    (hstate : bundleObj.State = "APPROVED")
    (hupdate : w.PutBundleState s5
      { ServiceAuthToken := c.ServiceToken, IfMatch := bundle.Headers.Get "Etag" }
      item.ID BundleStatePublished = ((some updatedBundle, none), s6)) :
    Run w cfg s =
      ⟨Return.returned
          { Results := [⟨updatedBundle.ID, true, none⟩], Success := true } none,
        [Call.GetBundles { ServiceAuthToken := c.ServiceToken } (Round t Minute),
          Call.GetBundle { ServiceAuthToken := c.ServiceToken } item.ID,
          Call.PutBundleState
            { ServiceAuthToken := c.ServiceToken, IfMatch := bundle.Headers.Get "Etag" }
            item.ID BundleStatePublished],
        cfg1, s6⟩ := by
  rw [Run_of_listing_ok w cfg s t s1 c cfg1 s2 list s3 h0 h1 h2, hitems, loop_cons,
    iteration_update_ok w _ item bundle s4 bundleObj publishCheck s5 scheduledAt updatedBundle s6
      hfetch hdecode hclock hscheduled hdue hstate hupdate]
  rfl

/-- The run of the test of the happy path returns one successful outcome under the id
of the bundle the update returned. -/
theorem happy_path_witness :
    Run worldPublish none () =
      ⟨Return.returned { Results := [⟨"bundle2", true, none⟩], Success := true } none,
        [Call.GetBundles { ServiceAuthToken := testToken } 0,
          Call.GetBundle { ServiceAuthToken := testToken } "bundle1",
          Call.PutBundleState { ServiceAuthToken := testToken, IfMatch := "etag-2" }
            "bundle1" "PUBLISHED"],
        some testConfig, ()⟩ :=
  happy_path worldPublish none () 1000 () testConfig (some testConfig) ()
    { Count := 2, Items := [⟨"bundle1", some 1060, "APPROVED"⟩], Limit := 20 } ()
    ⟨"bundle1", some 1060, "APPROVED"⟩
    ⟨200, some ⟨"bundle2", some 1000, "APPROVED"⟩, [("Etag", ["etag-2"])]⟩ ()
    ⟨"bundle2", some 1000, "APPROVED"⟩ 1000 () 1000 ⟨"bundle2", some 1000, "PUBLISHED"⟩ ()
    rfl rfl rfl rfl rfl rfl rfl rfl (by decide) rfl rfl

/-- With collaborators that never make `Run` dereference nil: for every listed item that
the loop reaches, that passes the gate (detail fetched and decoded, due, state
`APPROVED`) and whose update call reports an error, the iteration appends exactly one
outcome, with `BundleID` the id of the listed item, `Success = false` and `Error = nil`,
and `Run` returns a nil error and `Success = true`, that outcome standing in its results
right after the outcomes of the earlier items. The first part needs no assumption on
the collaborators. -/
theorem update_failure_recorded {σ β : Type} (w : World σ β) (hsafe : w.NilSafe)
    (cfg : Option Configuration) (s : σ) (pre : List Bundle) (item : Bundle)
    (post : List Bundle) (st : LoopState σ)
    (bundle : ResponseInfo β) (s1 : σ) (bundleObj : Bundle) (publishCheck : Time) (s2 : σ)
    (scheduledAt : Time) (updatedBundle : Option Bundle) (e : Error) (s3 : σ)
    (hreach : Reaches w cfg s pre item post st)
    (hfetch : w.GetBundle st.world st.headers item.ID = ((some bundle, none), s1))
    (hdecode : w.Unmarshal bundle.Body = some bundleObj)
    (hclock : w.timeNow s1 = (publishCheck, s2))
    (hscheduled : bundleObj.ScheduledAt = some scheduledAt)
    (hdue : scheduledAt ≤ publishCheck)
    (hstate : bundleObj.State = "APPROVED")
    (hupdate : w.PutBundleState s2 { st.headers with IfMatch := bundle.Headers.Get "Etag" }
      item.ID BundleStatePublished = ((updatedBundle, some e), s3)) :
    iteration w st item =
      Step.next ⟨{ st.headers with IfMatch := bundle.Headers.Get "Etag" },
        st.Results ++ [⟨item.ID, false, none⟩], s3,
        st.calls ++ [Call.GetBundle st.headers item.ID,
          Call.PutBundleState { st.headers with IfMatch := bundle.Headers.Get "Etag" }
            item.ID BundleStatePublished]⟩ ∧
    ∃ later, (Run w cfg s).ret =
      Return.returned
        { Results := st.Results ++ ⟨item.ID, false, none⟩ :: later, Success := true } none := by
  have hstep := iteration_update_failed w st item bundle s1 bundleObj publishCheck s2
    scheduledAt updatedBundle e s3 hfetch hdecode hclock hscheduled hdue hstate hupdate
  refine ⟨hstep, ?_⟩
  obtain ⟨hret, _⟩ := Run_of_Reaches w cfg s pre item post st hreach
  rw [loop_cons, hstep] at hret
  simp only at hret
  obtain ⟨stEnd, hend⟩ := loop_next_of_NilSafe w hsafe post
    ⟨{ st.headers with IfMatch := bundle.Headers.Get "Etag" },
      st.Results ++ [⟨item.ID, false, none⟩], s3,
      st.calls ++ [Call.GetBundle st.headers item.ID,
        Call.PutBundleState { st.headers with IfMatch := bundle.Headers.Get "Etag" }
          item.ID BundleStatePublished]⟩
  obtain ⟨cs, rs, _, hrs, _⟩ := loop_extends w post
    ⟨{ st.headers with IfMatch := bundle.Headers.Get "Etag" },
      st.Results ++ [⟨item.ID, false, none⟩], s3,
      st.calls ++ [Call.GetBundle st.headers item.ID,
        Call.PutBundleState { st.headers with IfMatch := bundle.Headers.Get "Etag" }
          item.ID BundleStatePublished]⟩
  rw [hend] at hret hrs
  simp only [Step.state] at hrs hret
  refine ⟨rs, ?_⟩
  rw [hret, hrs]
  simp

/-- The first item of two is approved and due and its update fails with status 500:
the run returns a nil error and `Success = true`, and the failed outcome of the first
item stands first in its results. -/
theorem update_failure_recorded_witness :
    ∃ later, (Run worldUpdateFails none ()).ret =
      Return.returned
        { Results := [] ++ ⟨"bundle1", false, none⟩ :: later, Success := true } none :=
  (update_failure_recorded worldUpdateFails worldUpdateFails_NilSafe none () []
    ⟨"bundle1", some 1000, "APPROVED"⟩ [⟨"bundle2", some 1000, "APPROVED"⟩] testStart
    ⟨200, some ⟨"bundle1", some 1000, "APPROVED"⟩, [("Etag", ["etag"])]⟩ ()
    ⟨"bundle1", some 1000, "APPROVED"⟩ 1000 () 1000 none error500 ()
    ⟨1000, (), testConfig, some testConfig, (),
      { Count := 2, Items := [⟨"bundle1", some 1000, "APPROVED"⟩,
        ⟨"bundle2", some 1000, "APPROVED"⟩], Limit := 20 }, (), rfl, rfl, rfl, rfl, rfl⟩
    rfl rfl rfl rfl (by decide) rfl rfl).2

/-- With collaborators that never make `Run` dereference nil: for every listed item that
the loop reaches and whose detail fetch reports an error, the iteration issues the
detail fetch and no other call, leaves the results as they are and goes on; `Run` then
fetches the detail of every later listed item, once each and in order, and returns a
nil error and `Success = true`, its results starting with the outcomes of the earlier
items. The first part needs no assumption on the collaborators. -/
theorem detail_fetch_failure_absorbed {σ β : Type} (w : World σ β) (hsafe : w.NilSafe)
    (cfg : Option Configuration) (s : σ) (pre : List Bundle) (item : Bundle)
    (post : List Bundle) (st : LoopState σ)
    (bundle : Option (ResponseInfo β)) (e : Error) (s1 : σ)
    (hreach : Reaches w cfg s pre item post st)
    (hfetch : w.GetBundle st.world st.headers item.ID = ((bundle, some e), s1)) :
    iteration w st item =
      Step.next ⟨st.headers, st.Results, s1,
        st.calls ++ [Call.GetBundle st.headers item.ID]⟩ ∧
    ∃ laterCalls laterResults,
      (Run w cfg s).calls = st.calls ++ Call.GetBundle st.headers item.ID :: laterCalls ∧
      fetchedIds laterCalls = post.map (fun b => b.ID) ∧
      (Run w cfg s).ret =
        Return.returned { Results := st.Results ++ laterResults, Success := true } none := by
  have hstep := iteration_fetch_error w st item bundle e s1 hfetch
  refine ⟨hstep, ?_⟩
  obtain ⟨hret, hcalls⟩ := Run_of_Reaches w cfg s pre item post st hreach
  rw [loop_cons, hstep] at hret hcalls
  simp only at hret hcalls
  obtain ⟨stEnd, hend⟩ := loop_next_of_NilSafe w hsafe post
    ⟨st.headers, st.Results, s1, st.calls ++ [Call.GetBundle st.headers item.ID]⟩
  obtain ⟨cs, rs, hcs, hrs, hids⟩ := loop_extends w post
    ⟨st.headers, st.Results, s1, st.calls ++ [Call.GetBundle st.headers item.ID]⟩
  have hids1 := hids stEnd hend
  rw [hend] at hret hcalls hcs hrs
  simp only [Step.state] at hcs hrs hret hcalls
  refine ⟨cs, rs, ?_, hids1, ?_⟩
  · rw [hcalls, hcs]
    simp
  · rw [hret, hrs]

/-- The detail fetch of the first of two items fails with status 500: the run fetches
the detail of the second item all the same and returns a nil error and
`Success = true`. -/
theorem detail_fetch_failure_absorbed_witness :
    ∃ laterCalls laterResults,
      (Run worldFetchError none ()).calls =
        [Call.GetBundles { ServiceAuthToken := testToken } 0] ++
          Call.GetBundle { ServiceAuthToken := testToken } "bundle1" :: laterCalls ∧
      fetchedIds laterCalls = ["bundle2"] ∧
      (Run worldFetchError none ()).ret =
        Return.returned { Results := [] ++ laterResults, Success := true } none :=
  (detail_fetch_failure_absorbed worldFetchError worldFetchError_NilSafe none () []
    ⟨"bundle1", some 1000, "APPROVED"⟩ [⟨"bundle2", some 1000, "APPROVED"⟩] testStart
    none error500 ()
    ⟨1000, (), testConfig, some testConfig, (),
      { Count := 2, Items := [⟨"bundle1", some 1000, "APPROVED"⟩,
        ⟨"bundle2", some 1000, "APPROVED"⟩], Limit := 20 }, (), rfl, rfl, rfl, rfl, rfl⟩
    rfl).2

/-- C8: for every listed item that the loop reaches and that passes the gate (detail
fetched and decoded, due, state `APPROVED`), the iteration issues, after the detail
fetch, exactly one update call; that call targets the id of the listed item, requests
the state `PUBLISHED` and carries as `IfMatch` the `Etag` header of the response to
this item's detail fetch; and these calls stand in the calls of `Run`. -/
theorem concurrency_token_passthrough {σ β : Type} (w : World σ β)
    (cfg : Option Configuration) (s : σ) (pre : List Bundle) (item : Bundle)
    (post : List Bundle) (st : LoopState σ)
    (bundle : ResponseInfo β) (s1 : σ) (bundleObj : Bundle) (publishCheck : Time) (s2 : σ)
    (scheduledAt : Time)
    (hreach : Reaches w cfg s pre item post st)
    (hfetch : w.GetBundle st.world st.headers item.ID = ((some bundle, none), s1))
    (hdecode : w.Unmarshal bundle.Body = some bundleObj)
    (hclock : w.timeNow s1 = (publishCheck, s2))
    (hscheduled : bundleObj.ScheduledAt = some scheduledAt)
    (hdue : scheduledAt ≤ publishCheck)
    (hstate : bundleObj.State = "APPROVED") :
    (iteration w st item).state.calls =
      st.calls ++ [Call.GetBundle st.headers item.ID,
        Call.PutBundleState { st.headers with IfMatch := bundle.Headers.Get "Etag" }
          item.ID "PUBLISHED"] ∧
    ∃ laterCalls, (Run w cfg s).calls =
      st.calls ++ [Call.GetBundle st.headers item.ID,
        Call.PutBundleState { st.headers with IfMatch := bundle.Headers.Get "Etag" }
          item.ID "PUBLISHED"] ++ laterCalls := by
  have hiter : (iteration w st item).state.calls =
      st.calls ++ [Call.GetBundle st.headers item.ID,
        Call.PutBundleState { st.headers with IfMatch := bundle.Headers.Get "Etag" }
          item.ID "PUBLISHED"] := by
    rcases hupdate : w.PutBundleState s2 { st.headers with IfMatch := bundle.Headers.Get "Etag" }
      item.ID BundleStatePublished with ⟨⟨updatedBundle, err⟩, s3⟩
    cases err with
    | some e =>
      rw [iteration_update_failed w st item bundle s1 bundleObj publishCheck s2
        scheduledAt updatedBundle e s3 hfetch hdecode hclock hscheduled hdue hstate hupdate]
      rfl
    | none =>
      cases updatedBundle with
      | none =>
        rw [iteration_update_nil w st item bundle s1 bundleObj publishCheck s2
          scheduledAt s3 hfetch hdecode hclock hscheduled hdue hstate hupdate]
        rfl
      | some u =>
        rw [iteration_update_ok w st item bundle s1 bundleObj publishCheck s2
          scheduledAt u s3 hfetch hdecode hclock hscheduled hdue hstate hupdate]
        rfl
  refine ⟨hiter, ?_⟩
  obtain ⟨_, hcalls⟩ := Run_of_Reaches w cfg s pre item post st hreach
  obtain ⟨cs, hcs⟩ := loop_cons_calls w item post st
  exact ⟨cs, by rw [hcalls, hcs, hiter]⟩

/-- In the run of the test of the happy path the update call carries the entity tag
`etag-2` of the detail response. -/
theorem concurrency_token_passthrough_witness :
    ∃ laterCalls, (Run worldPublish none ()).calls =
      [Call.GetBundles { ServiceAuthToken := testToken } 0] ++
        [Call.GetBundle { ServiceAuthToken := testToken } "bundle1",
          Call.PutBundleState { ServiceAuthToken := testToken, IfMatch := "etag-2" }
            "bundle1" "PUBLISHED"] ++ laterCalls :=
  (concurrency_token_passthrough worldPublish none () []
    ⟨"bundle1", some 1060, "APPROVED"⟩ [] testStart
    ⟨200, some ⟨"bundle2", some 1000, "APPROVED"⟩, [("Etag", ["etag-2"])]⟩ ()
    ⟨"bundle2", some 1000, "APPROVED"⟩ 1000 () 1000
    ⟨1000, (), testConfig, some testConfig, (),
      { Count := 2, Items := [⟨"bundle1", some 1060, "APPROVED"⟩], Limit := 20 }, (),
      rfl, rfl, rfl, rfl, rfl⟩
    rfl rfl rfl rfl (by decide) rfl).2

/-- For every successful listing and every listed item that the loop reaches and whose
iteration completes, the iteration issues an update call for the item (after the
detail fetch, for the id of the listed item and the state `PUBLISHED`) and appends an
outcome if and only if the item passes the gate: its detail fetch returned a response
and no error, the payload decoded, the decoded `ScheduledAt` is at or before the instant
read for the check, and the decoded state is exactly `APPROVED`. An item that does not
pass the gate (a due item in another state, an item scheduled after the check instant)
gets its detail fetch and nothing else: no update call and no outcome. The calls and
the outcomes of the iteration stand in the calls of `Run` and in the results `Run`
returns. -/
theorem eligibility_gate {σ β : Type} (w : World σ β) (cfg : Option Configuration) (s : σ)
    (pre : List Bundle) (item : Bundle) (post : List Bundle) (st st2 : LoopState σ)
    (hreach : Reaches w cfg s pre item post st)
    (hstep : iteration w st item = Step.next st2) :
    (((∃ headers, st2.calls = st.calls ++ [Call.GetBundle st.headers item.ID,
          Call.PutBundleState headers item.ID "PUBLISHED"]) ∧
        (∃ outcome, st2.Results = st.Results ++ [outcome])) ↔ Eligible w st item) ∧
    (¬ Eligible w st item →
      st2.calls = st.calls ++ [Call.GetBundle st.headers item.ID] ∧
      st2.Results = st.Results) ∧
    (∃ laterCalls, (Run w cfg s).calls = st2.calls ++ laterCalls) ∧
    (∀ result err, (Run w cfg s).ret = Return.returned result err →
      ∃ laterResults, result.Results = st2.Results ++ laterResults) := by
  have key : (¬ Eligible w st item ∧
        st2.calls = st.calls ++ [Call.GetBundle st.headers item.ID] ∧
        st2.Results = st.Results) ∨
      (Eligible w st item ∧
        (∃ headers, st2.calls = st.calls ++ [Call.GetBundle st.headers item.ID,
          Call.PutBundleState headers item.ID "PUBLISHED"]) ∧
        (∃ outcome, st2.Results = st.Results ++ [outcome])) := by
    rcases iteration_cases w st item with ⟨hne, ⟨s1, h⟩ | ⟨s1, _, h⟩⟩ |
      ⟨bundle, s1, bundleObj, publishCheck, s2, scheduledAt, updatedBundle, err, s3,
        hfetch, hdecode, hclock, hscheduled, hdue, hstate, hupdate⟩
    · rw [hstep] at h
      cases h
      exact Or.inl ⟨hne, rfl, rfl⟩
    · rw [hstep] at h
      cases h
    · have helig : Eligible w st item :=
        ⟨bundle, s1, bundleObj, publishCheck, s2, scheduledAt,
          hfetch, hdecode, hclock, hscheduled, hdue, hstate⟩
      refine Or.inr ⟨helig, ?_⟩
      cases err with
      | some e =>
        have h := iteration_update_failed w st item bundle s1 bundleObj publishCheck s2
          scheduledAt updatedBundle e s3 hfetch hdecode hclock hscheduled hdue hstate hupdate
        rw [hstep] at h
        cases h
        exact ⟨⟨_, rfl⟩, ⟨_, rfl⟩⟩
      | none =>
        cases updatedBundle with
        | none =>
          have h := iteration_update_nil w st item bundle s1 bundleObj publishCheck s2
            scheduledAt s3 hfetch hdecode hclock hscheduled hdue hstate hupdate
          rw [hstep] at h
          cases h
        | some u =>
          have h := iteration_update_ok w st item bundle s1 bundleObj publishCheck s2
            scheduledAt u s3 hfetch hdecode hclock hscheduled hdue hstate hupdate
          rw [hstep] at h
          cases h
          exact ⟨⟨_, rfl⟩, ⟨_, rfl⟩⟩
  obtain ⟨hret, hcalls⟩ := Run_of_Reaches w cfg s pre item post st hreach
  rw [loop_cons, hstep] at hret hcalls
  simp only at hret hcalls
  obtain ⟨cs, rs, hcs, hrs, _⟩ := loop_extends w post st2
  refine ⟨?_, ?_, ⟨cs, by rw [hcalls, hcs]⟩, ?_⟩
  · constructor
    · rintro ⟨⟨headers, hput⟩, _⟩
      rcases key with ⟨_, hget, _⟩ | ⟨helig, _⟩
      · rw [hget] at hput
        have h := List.append_cancel_left hput
        simp at h
      · exact helig
    · intro helig
      rcases key with ⟨hne, _⟩ | ⟨_, hput, hout⟩
      · exact absurd helig hne
      · exact ⟨hput, hout⟩
  · intro hne
    rcases key with ⟨_, hget, hres⟩ | ⟨helig, _⟩
    · exact ⟨hget, hres⟩
    · exact absurd helig hne
  · intro result err h
    rw [hret] at h
    cases hl : loop w post st2 with
    | panic stEnd =>
      rw [hl] at h
      simp at h
    | next stEnd =>
      rw [hl] at h hrs
      simp only [Return.returned.injEq] at h
      refine ⟨rs, ?_⟩
      rw [← h.1]
      exact hrs

/-- The draft of the test of the incorrect state does not pass the gate. -/
theorem draft_not_Eligible :
    ¬ Eligible worldIneligible testStart ⟨"bundle5", some 1000, "DRAFT"⟩ := by
  rintro ⟨bundle, s1, bundleObj, publishCheck, s2, scheduledAt, hfetch, hdecode, _, _, _, hstate⟩
  simp only [worldIneligible, fixedWorld, detailOf, if_true, Prod.mk.injEq,
    Option.some.injEq, and_true] at hfetch
  obtain ⟨rfl, _⟩ := hfetch
  simp only [worldIneligible, fixedWorld, Option.some.injEq] at hdecode
  subst hdecode
  simp at hstate

/-- A draft that is due, listed first, with an update mock that returns nil and a nil
error: the draft does not pass the gate, its iteration issues the detail fetch and
nothing else and records no outcome, and the calls of the run start with the listing
call and that detail fetch. -/
theorem eligibility_gate_witness :
    ¬ Eligible worldIneligible testStart ⟨"bundle5", some 1000, "DRAFT"⟩ ∧
    ((⟨testStart.headers, [], (),
        testStart.calls ++ [Call.GetBundle testStart.headers "bundle5"]⟩ : LoopState Unit).Results
      = testStart.Results) ∧
    (∃ laterCalls, (Run worldIneligible none ()).calls =
      (testStart.calls ++ [Call.GetBundle testStart.headers "bundle5"]) ++ laterCalls) :=
  have h := eligibility_gate worldIneligible none () [] ⟨"bundle5", some 1000, "DRAFT"⟩
    [⟨"bundle1", some 1060, "APPROVED"⟩] testStart
    ⟨testStart.headers, [], (), testStart.calls ++ [Call.GetBundle testStart.headers "bundle5"]⟩
    ⟨1000, (), testConfig, some testConfig, (),
      { Count := 2, Items := [⟨"bundle5", some 1000, "DRAFT"⟩,
        ⟨"bundle1", some 1060, "APPROVED"⟩], Limit := 20 }, (), rfl, rfl, rfl, rfl, rfl⟩
    rfl
  ⟨draft_not_Eligible, (h.2.1 draft_not_Eligible).2, h.2.2.1⟩

/-! ## Where the code departs from the specification -/

/-- C7 fails on the code: the listing succeeds with one item; when the detail of the
item decodes to a bundle without `ScheduledAt`, and also when the item is approved and
due and its update returns neither an item nor an error, `Run` panics on a nil pointer
dereference and returns nothing. -/
theorem per_item_problem_panics :
    (worldNoScheduledAt.GetBundles () { ServiceAuthToken := testToken } 0).1.2 = none ∧
    (Run worldNoScheduledAt none ()).ret = Return.panicked ∧
    (worldUpdateNil.GetBundles () { ServiceAuthToken := testToken } 0).1.2 = none ∧
    (Run worldUpdateNil none ()).ret = Return.panicked := by
  decide

/-- C10 fails on the code: listed after `bundle1`, which passes the gate, `bundle2` has
its detail fetched with `IfMatch` set to the entity tag of `bundle1`; listed alone, with
the same collaborators, it has its detail fetched with an empty `IfMatch`. -/
theorem headers_leak_between_iterations :
    (Run (worldListing [⟨"bundle1", some 1000, "APPROVED"⟩, ⟨"bundle2", some 1000, "APPROVED"⟩])
        none ()).calls =
      [Call.GetBundles { ServiceAuthToken := testToken } 0,
        Call.GetBundle { ServiceAuthToken := testToken, IfMatch := "" } "bundle1",
        Call.PutBundleState { ServiceAuthToken := testToken, IfMatch := "etag-bundle1" }
          "bundle1" "PUBLISHED",
        Call.GetBundle { ServiceAuthToken := testToken, IfMatch := "etag-bundle1" } "bundle2",
        Call.PutBundleState { ServiceAuthToken := testToken, IfMatch := "etag-bundle2" }
          "bundle2" "PUBLISHED"] ∧
    (Run (worldListing [⟨"bundle2", some 1000, "APPROVED"⟩]) none ()).calls =
      [Call.GetBundles { ServiceAuthToken := testToken } 0,
        Call.GetBundle { ServiceAuthToken := testToken, IfMatch := "" } "bundle2",
        Call.PutBundleState { ServiceAuthToken := testToken, IfMatch := "etag-bundle2" }
          "bundle2" "PUBLISHED"] := by
  decide

/-- C3 fails on the code: the one listed item passes the gate (detail fetched and
decoded, due, state `APPROVED`) and its update returns neither an item nor an error; the
iteration issues the update call, panics on the nil pointer dereference and records no
outcome, so an update call without an outcome is all that is left of the item, and
`Run` returns nothing. -/
theorem eligible_item_without_outcome :
    Eligible worldUpdateNil testStart ⟨"bundle1", some 1000, "APPROVED"⟩ ∧
    (iteration worldUpdateNil testStart ⟨"bundle1", some 1000, "APPROVED"⟩).state.calls =
      [Call.GetBundles { ServiceAuthToken := testToken } 0,
        Call.GetBundle { ServiceAuthToken := testToken } "bundle1",
        Call.PutBundleState { ServiceAuthToken := testToken, IfMatch := "etag-1" }
          "bundle1" "PUBLISHED"] ∧
    (iteration worldUpdateNil testStart ⟨"bundle1", some 1000, "APPROVED"⟩).state.Results = [] ∧
    (Run worldUpdateNil none ()).calls =
      [Call.GetBundles { ServiceAuthToken := testToken } 0,
        Call.GetBundle { ServiceAuthToken := testToken } "bundle1",
        Call.PutBundleState { ServiceAuthToken := testToken, IfMatch := "etag-1" }
          "bundle1" "PUBLISHED"] ∧
    (Run worldUpdateNil none ()).ret = Return.panicked := by
  refine ⟨⟨⟨200, some ⟨"bundle1", some 1000, "APPROVED"⟩, [("Etag", ["etag-1"])]⟩, (),
    ⟨"bundle1", some 1000, "APPROVED"⟩, 1000, (), 1000, rfl, rfl, rfl, rfl, by decide, rfl⟩, ?_⟩
  decide

/-- C4 fails on the code: the first of two listed items passes the gate and its update
fails with status 500, and the iteration appends the failed outcome under the id of the
listed item; the second item passes the gate and its update returns neither an item nor
an error, `Run` panics on the nil pointer dereference, and the run returns neither a nil
error nor a result. -/
theorem update_failure_then_panic :
    iteration worldUpdateFailsThenNil testStart ⟨"bundle1", some 1000, "APPROVED"⟩ =
      Step.next ⟨{ ServiceAuthToken := testToken, IfMatch := "etag" },
        [⟨"bundle1", false, none⟩], (),
        [Call.GetBundles { ServiceAuthToken := testToken } 0,
          Call.GetBundle { ServiceAuthToken := testToken } "bundle1",
          Call.PutBundleState { ServiceAuthToken := testToken, IfMatch := "etag" }
            "bundle1" "PUBLISHED"]⟩ ∧
    (Run worldUpdateFailsThenNil none ()).ret = Return.panicked := by
  refine ⟨rfl, ?_⟩
  decide

/-- C6 fails on the code: the detail fetch of the first of three listed items fails with
status 500 and the iteration goes on with no update call and no outcome; the detail of
the second item decodes without `ScheduledAt`, `Run` panics on the nil pointer
dereference, the detail of the third item is never fetched, and the run returns
neither a nil error nor a result. -/
theorem detail_fetch_failure_then_panic :
    (Run worldFetchErrorThenNoScheduledAt none ()).calls =
      [Call.GetBundles { ServiceAuthToken := testToken } 0,
        Call.GetBundle { ServiceAuthToken := testToken } "bundle1",
        Call.GetBundle { ServiceAuthToken := testToken } "bundle2"] ∧
    fetchedIds (Run worldFetchErrorThenNoScheduledAt none ()).calls = ["bundle1", "bundle2"] ∧
    (Run worldFetchErrorThenNoScheduledAt none ()).ret = Return.panicked := by
  decide

end BundleScheduler
